import Mathlib

/-!
Verification of the resume-ingestion pipeline (`src/main.py`).

The pipeline orchestrator in `main.py` runs three stages over a batch of
uploaded resume files: `process_uploaded_files` (parse), `standardize_resumes`
(LLM standardization) and `upload_to_mongodb` (store).  Session state
(`st.session_state`) is modelled as an explicit `SessionState` record, the
staging directories as an explicit association-list file system, and the
external collaborators (`ResumeParser`, `ResumeStandardizer`,
`ResumeDBManager`) as environment records of functions, since their modules
are not part of the analysed sources.
-/

set_option maxHeartbeats 1000000

/-! ### String helpers mirroring Python `str` / `pathlib` operations -/

/-- Model of Python `str.strip()` (restricted to ASCII whitespace). -/
def pyStrip (s : String) : String :=
  String.mk (((s.data.dropWhile Char.isWhitespace).reverse.dropWhile Char.isWhitespace).reverse)

/-- Model of Python `str.lower()` (ASCII case folding). -/
def strToLower (s : String) : String :=
  String.mk (s.data.map Char.toLower)

/-- Index of the rightmost `'.'` in a character list (Python `str.rfind`). -/
def lastDotPos : List Char → Option Nat
  | [] => none
  | c :: cs =>
    match lastDotPos cs with
    | some n => some (n + 1)
    | none => if c = '.' then some 0 else none

/-- Model of `pathlib.PurePath` name splitting: CPython returns a non-empty
suffix exactly when the rightmost dot sits at an index `i` with
`0 < i < len(name) - 1`. -/
def pySplitExt (s : String) : String × String :=
  match lastDotPos s.data with
  | some n =>
    if 0 < n ∧ n < s.data.length - 1 then
      (String.mk (s.data.take n), String.mk (s.data.drop n))
    else (s, "")
  | none => (s, "")

/-- Model of `Path(name).stem`. -/
def pyStem (s : String) : String := (pySplitExt s).1

/-- Model of `Path(name).suffix`. -/
def pySuffix (s : String) : String := (pySplitExt s).2

/-! ### JSON values (the shape `json.load` / `json.dump` round-trips) -/

/-- JSON values as handled by Python's `json` module; a Python `dict` is an
insertion-ordered association list. -/
inductive JVal where
  | str (s : String)
  | arr (xs : List JVal)
  | obj (kvs : List (String × JVal))
  | null
deriving Repr

/-- Lookup in an insertion-ordered dictionary. -/
def lookupKV : List (String × JVal) → String → Option JVal
  | [], _ => none
  | (k', v) :: rest, k => if k' = k then some v else lookupKV rest k

/-- Python `d[k] = v`: replace in place if the key exists, else append. -/
def setKV : List (String × JVal) → String → JVal → List (String × JVal)
  | [], k, v => [(k, v)]
  | (k', v') :: rest, k, v =>
    if k' = k then (k, v) :: rest else (k', v') :: setKV rest k v

/-- Dictionary membership / indexing on a `JVal` (none on non-objects). -/
def JVal.lookup : JVal → String → Option JVal
  | .obj kvs, k => lookupKV kvs k
  | _, _ => none

/-- Python `d[k] = v` on a `JVal`; identity on non-objects (the code only
assigns into values it has pattern-checked to be dictionaries). -/
def JVal.set : JVal → String → JVal → JVal
  | .obj kvs, k, v => .obj (setKV kvs k v)
  | j, _, _ => j

/-- Python `raw.get(k, d)` for a dictionary `raw`. -/
def jGetD (j : JVal) (k : String) (d : JVal) : JVal :=
  match j.lookup k with
  | some v => v
  | none => d

/-- Whether a `JVal` is a Python dictionary. -/
def JVal.isObj : JVal → Bool
  | .obj _ => true
  | _ => false

def lbrace : Char := Char.ofNat 123

def rbrace : Char := Char.ofNat 125

/- Rendering of a `JVal` back to text (used only to embed the extracted
links into the LLM prompt, mirroring Python string interpolation). -/
mutual

def jshow : JVal → String
  | .str s => "\"" ++ s ++ "\""
  | .arr xs => "[" ++ jshowList xs ++ "]"
  | .obj kvs => String.mk [lbrace] ++ jshowKVs kvs ++ String.mk [rbrace]
  | .null => "None"

def jshowList : List JVal → String
  | [] => ""
  | [x] => jshow x
  | x :: xs => jshow x ++ ", " ++ jshowList xs

def jshowKVs : List (String × JVal) → String
  | [] => ""
  | [(k, v)] => "\"" ++ k ++ "\": " ++ jshow v
  | (k, v) :: rest => "\"" ++ k ++ "\": " ++ jshow v ++ ", " ++ jshowKVs rest

end

/-! ### File system and paths -/

/-- A path under the temp processing root: a directory plus a file name. -/
structure FPath where
  dir : String
  nm : String
deriving DecidableEq, Repr

/-- Rendering of a path as a string (Python `str(path)`). -/
def FPath.full (p : FPath) : String := p.dir ++ "/" ++ p.nm

/-- Contents of a staged file: a JSON document (written by `json.dump`),
plain text (the raw LLM response log) or an opaque uploaded blob. -/
inductive FileContent where
  | js (j : JVal)
  | txt (s : String)
  | blob (s : String)
deriving Repr

/-- The staging file system: newest write first, keyed by path. -/
abbrev FS := List (FPath × FileContent)

/-- Read a file (Python `open(...).read()` / `json.load` source). -/
def FS.read : FS → FPath → Option FileContent
  | [], _ => none
  | (q, c) :: rest, p => if q = p then some c else FS.read rest p

/-- Overwriting write (Python `open(path, "w")`). -/
def FS.write (fs : FS) (p : FPath) (c : FileContent) : FS := (p, c) :: fs

/-- Model of `Path.exists()`. -/
def FS.fileExists (fs : FS) (p : FPath) : Bool := (fs.read p).isSome

/-- Directory layout created at module import (`main.py` lines 46-52). -/
def temp_dir : String := "resume_processor"

def parsed_dir : String := "resume_processor/parsed"

def standardized_dir : String := "resume_processor/standardized"

/-- Destination of the uploaded blob (`os.path.join(temp_dir, file_name)`). -/
def tempPathOf (name : String) : FPath := ⟨temp_dir, name⟩

/-- Staged parsed artifact (`parsed_dir / f"{Path(file_name).stem}.json"`). -/
def parsedPathOf (name : String) : FPath := ⟨parsed_dir, pyStem name ++ ".json"⟩

/-- Staged standardized artifact (`standardized_dir / file_path.name`). -/
def stdOutPath (p : FPath) : FPath := ⟨standardized_dir, p.nm⟩

/-- Raw-response diagnostic log (`standardized_dir / f"{file_path.stem}_raw.md"`). -/
def stdRawLogPath (p : FPath) : FPath := ⟨standardized_dir, pyStem p.nm ++ "_raw.md"⟩

/-! ### Session state (`st.session_state`) -/

/-- The Streamlit session keys that the three stage functions read and
write (`main.py` lines 33-44), plus the staging file system. -/
structure SessionState where
  processing_complete : Bool
  standardizing_complete : Bool
  db_upload_complete : Bool
  processed_files : List FPath
  standardized_files : List FPath
  uploaded_files : List String
  fs : FS

/-! ### Parse stage (`process_uploaded_files`, `main.py` lines 54-105) -/

/-- Result of `parser.parse_resume(path)`: a parsed dictionary with extracted
text and links, a falsy result (`None` / empty), or a raised exception. -/
inductive ParserResult where
  | ok (content : String) (links : List String)
  | noContent
  | exn (msg : String)

/-- Modelled from the spec: the `ResumeParser` collaborator
(`llama_resume_parser` is not under `src/`).  `SUPPORTED_EXTENSIONS` is its
fixed supported set, `.pdf` and `.docx` (spec section 4.1); `initExn i` says
whether the per-iteration `ResumeParser()` construction raises at iteration
`i`; `parse_resume` is its extraction function keyed by the temp path. -/
structure ParseEnv where
  initExn : Nat → Option String
  parse_resume : FPath → ParserResult
  now : String

/-- Modelled from the spec: the fixed supported-extension set of the parser
collaborator (spec section 4.1: "a fixed supported set (e.g., `.pdf`,
`.docx`)"; the front end also restricts uploads to these two types). -/
def SUPPORTED_EXTENSIONS : List String := [".pdf", ".docx"]

/-- Per-item report emitted by the parse stage: success, or one of the
per-item failure messages (`st.warning` / `st.error`). -/
inductive ParseOutcome where
  | ok
  | unsupported
  | noContent
  | parseError (msg : String)
deriving DecidableEq, Repr

/-- One iteration of the loop in `process_uploaded_files`: write the blob to
the temp path, construct `ResumeParser()` (an exception here escapes the
function — there is no surrounding handler), reject unsupported extensions,
then parse inside the per-item `try`.  `Except.error` carries an escaped
exception together with the state at that point. -/
def parseStep (env : ParseEnv) (i : Nat) (f : String × String) (st : SessionState) :
    Except (String × SessionState) (SessionState × ParseOutcome × List FPath) :=
  let st1 := { st with fs := st.fs.write (tempPathOf f.1) (.blob f.2) }
  match env.initExn i with
  | some m => .error (m, st1)
  | none =>
    if SUPPORTED_EXTENSIONS.contains (strToLower (pySuffix f.1)) then
      match env.parse_resume (tempPathOf f.1) with
      | .ok content links =>
        let record := JVal.obj [("content", .str content),
                                ("links", .arr (links.map .str)),
                                ("timestamp", .str env.now),
                                ("original_filename", .str f.1)]
        let p := parsedPathOf f.1
        .ok ({ st1 with fs := st1.fs.write p (.js record),
                        processed_files := st1.processed_files ++ [p] },
             .ok, [tempPathOf f.1])
      | .noContent => .ok (st1, .noContent, [tempPathOf f.1])
      | .exn m => .ok (st1, .parseError m, [tempPathOf f.1])
    else
      .ok (st1, .unsupported, [])

/-- The parse loop over the uploaded batch, threading the session state.
Returns the final state, the per-item outcomes in order, the list of temp
paths passed to `parse_resume`, and an escaped exception if one aborted the
loop. -/
def runParseFrom (env : ParseEnv) :
    SessionState → Nat → List (String × String) →
    SessionState × List ParseOutcome × List FPath × Option String
  | st, _, [] => (st, [], [], none)
  | st, i, f :: rest =>
    match parseStep env i f st with
    | .error (m, st1) => (st1, [], [], some m)
    | .ok (st1, o, calls) =>
      match runParseFrom env st1 (i + 1) rest with
      | (st2, os, cs, e) => (st2, o :: os, calls ++ cs, e)

/-- Observable result of one run of a stage function. -/
structure ParseStageOut where
  state : SessionState
  outcomes : List ParseOutcome
  parseCalls : List FPath
  escaped : Option String

/-- `process_uploaded_files` (`main.py` lines 54-105): reset the three
completion flags and the `processed_files` list, loop over the batch, then
mark parsing complete (unless an exception escaped the loop). -/
def process_uploaded_files (env : ParseEnv) (files : List (String × String))
    (st : SessionState) : ParseStageOut :=
  let st0 := { st with processing_complete := false,
                       standardizing_complete := false,
                       db_upload_complete := false,
                       processed_files := [] }
  match runParseFrom env st0 0 files with
  | (st1, os, cs, none) =>
    { state := { st1 with processing_complete := true },
      outcomes := os, parseCalls := cs, escaped := none }
  | (st1, os, cs, some m) =>
    { state := st1, outcomes := os, parseCalls := cs, escaped := some m }

/-- The outcome an individual file receives, as a function of the file and
the environment alone (the loop body never consults the threaded state when
classifying an item). -/
def parseOutcomeOf (env : ParseEnv) (f : String × String) : ParseOutcome :=
  if SUPPORTED_EXTENSIONS.contains (strToLower (pySuffix f.1)) then
    match env.parse_resume (tempPathOf f.1) with
    | .ok _ _ => .ok
    | .noContent => .noContent
    | .exn m => .parseError m
  else .unsupported

/-- The parsed-artifact paths of exactly the files that parse successfully. -/
def parseSuccessPaths (env : ParseEnv) (files : List (String × String)) : List FPath :=
  files.filterMap (fun f =>
    match parseOutcomeOf env f with
    | .ok => some (parsedPathOf f.1)
    | _ => none)

/-! ### Standardize stage (`standardize_resumes`, `main.py` lines 107-183) -/

/-- Result of constructing `ResumeStandardizer()`: success, a raised
`ValueError` (the only exception type the surrounding handler catches), or
an exception of any other type. -/
inductive StdInit where
  | ok
  | valueError (msg : String)
  | otherExn (msg : String)
deriving DecidableEq, Repr

/-- Modelled from the spec: the `ResumeStandardizer` collaborator and the
`json` library (`standardizer` is not under `src/`).  `call_azure_llm` maps
a prompt to the raw response text or a raised transport error;
`jsonParse` is `json.loads` on the sanitized text (`none` means it raised
`JSONDecodeError`); `now` is `datetime.now().isoformat()`. -/
structure StdEnv where
  init : StdInit
  call_azure_llm : String → Except String String
  jsonParse : String → Option JVal
  now : String

/-- Modelled from the spec: `ResumeStandardizer.make_standardizer_prompt`
builds a deterministic prompt embedding the extracted content and links with
schema instructions (spec section 4.2; the module is not under `src/`). -/
def make_standardizer_prompt (content : String) (links : JVal) : String :=
  "Rewrite the following resume as canonical JSON with keys name, email, " ++
  "phone, location, skills, experience, education. Output JSON only.\n" ++
  "Content:\n" ++ content ++ "\nLinks:\n" ++ jshow links

/-- Modelled from the spec: `ResumeStandardizer.clean_llm_response`
sanitizes the free-form response by extracting the substring from the first
opening brace through the last closing brace, falling back to a stripped
copy when no such span exists (spec section 4.2). -/
def clean_llm_response (s : String) : String :=
  let cs := s.data
  match cs.findIdx? (fun c => c = lbrace) with
  | none => pyStrip s
  | some i =>
    match cs.reverse.findIdx? (fun c => c = rbrace) with
    | none => pyStrip s
    | some rj =>
      let j := cs.length - 1 - rj
      if i ≤ j then String.mk ((cs.take (j + 1)).drop i) else pyStrip s

/-- Per-item report of the standardize stage.  `cached` is the skip-on-rerun
branch; every constructor from `loadError` on corresponds to an exception
caught by the per-item handler (`main.py` line 176). -/
inductive StdOutcome where
  | cached
  | ok
  | emptyContent
  | loadError (msg : String)
  | llmError (msg : String)
  | malformed
  | stampError
deriving DecidableEq, Repr

/-- Evaluation of `raw.get("content", "")` followed by `content.strip()`
availability: fails (an `AttributeError` inside the per-item `try`) when
`raw` is not a dictionary or the value is not a string. -/
def getContentField : JVal → Except String String
  | .obj kvs =>
    match lookupKV kvs "content" with
    | none => .ok ""
    | some (.str s) => .ok s
    | some _ => .error "AttributeError: strip"
  | _ => .error "AttributeError: get"

/-- The metadata stamping of `main.py` lines 165-169: set `timestamp`, then
`source_file`, then (when the parsed record carries one) `original_filename`. -/
def stampRecord (j : JVal) (now : String) (p : FPath) (raw : JVal) : JVal :=
  let j1 := j.set "timestamp" (.str now)
  let j2 := j1.set "source_file" (.str p.full)
  match raw.lookup "original_filename" with
  | some v => j2.set "original_filename" v
  | none => j2

/-- Result of one iteration of the standardize loop: the updated session
state, the item's outcome, and how many LLM calls were issued for it. -/
structure StdItemRes where
  st : SessionState
  outcome : StdOutcome
  llmCalls : Nat

/-- One iteration of the loop in `standardize_resumes` (`main.py` lines
131-180): skip (and append) if the staged artifact already exists; otherwise
load the parsed record, reject empty content before building a prompt, call
the LLM, log the raw response, sanitize, parse, stamp and write the staged
artifact, appending to `standardized_files` only on full success. -/
def standardizeStep (env : StdEnv) (st : SessionState) (p : FPath) : StdItemRes :=
  let out := stdOutPath p
  if st.fs.fileExists out then
    { st := { st with standardized_files := st.standardized_files ++ [out] },
      outcome := .cached, llmCalls := 0 }
  else
    match st.fs.read p with
    | some (.js raw) =>
      match getContentField raw with
      | .error m => { st := st, outcome := .loadError m, llmCalls := 0 }
      | .ok content =>
        if (pyStrip content).isEmpty then
          { st := st, outcome := .emptyContent, llmCalls := 0 }
        else
          let prompt := make_standardizer_prompt content (jGetD raw "links" (.arr []))
          match env.call_azure_llm prompt with
          | .error m => { st := st, outcome := .llmError m, llmCalls := 1 }
          | .ok rawResponse =>
            let st1 := { st with fs := st.fs.write (stdRawLogPath p) (.txt rawResponse) }
            match env.jsonParse (clean_llm_response rawResponse) with
            | none => { st := st1, outcome := .malformed, llmCalls := 1 }
            | some parsed =>
              if parsed.isObj then
                let stamped := stampRecord parsed env.now p raw
                { st := { st1 with fs := st1.fs.write out (.js stamped),
                                   standardized_files := st1.standardized_files ++ [out] },
                  outcome := .ok, llmCalls := 1 }
              else
                { st := st1, outcome := .stampError, llmCalls := 1 }
    | some _ => { st := st, outcome := .loadError "JSONDecodeError", llmCalls := 0 }
    | none => { st := st, outcome := .loadError "FileNotFoundError", llmCalls := 0 }

/-- The standardize loop over the processed-files list. -/
def runStdFrom (env : StdEnv) :
    SessionState → List FPath → SessionState × List StdOutcome × List Nat
  | st, [] => (st, [], [])
  | st, p :: rest =>
    let r := standardizeStep env st p
    match runStdFrom env r.st rest with
    | (st2, os, cs) => (st2, r.outcome :: os, r.llmCalls :: cs)

/-- Observable result of one run of the standardize stage. -/
structure StdStageOut where
  state : SessionState
  outcomes : List StdOutcome
  llmCalls : List Nat
  escaped : Option String

/-- `standardize_resumes` (`main.py` lines 107-183): reset the completion
flag and the `standardized_files` list, construct the standardizer (a
`ValueError` is caught and aborts the stage before any item; any other
exception escapes the function), loop over `processed_files`, then mark the
stage complete. -/
def standardize_resumes (env : StdEnv) (st : SessionState) : StdStageOut :=
  let st0 := { st with standardizing_complete := false, standardized_files := [] }
  match env.init with
  | .valueError _ => { state := st0, outcomes := [], llmCalls := [], escaped := none }
  | .otherExn m => { state := st0, outcomes := [], llmCalls := [], escaped := some m }
  | .ok =>
    match runStdFrom env st0 st0.processed_files with
    | (st1, os, cs) =>
      { state := { st1 with standardizing_complete := true },
        outcomes := os, llmCalls := cs, escaped := none }

/-! ### Store stage (`upload_to_mongodb`, `main.py` lines 185-220) -/

/-- Modelled from the spec: the `ResumeDBManager` collaborator (`db_manager`
is not under `src/`).  `initExn` is an exception raised by
`ResumeDBManager()` (caught by the surrounding `except Exception` handler);
`insert_or_update_resume` upserts a record or raises. -/
structure StoreEnv where
  initExn : Option String
  insert_or_update_resume : JVal → Except String Unit

/-- Per-item report of the store stage. -/
inductive StoreOutcome where
  | ok
  | loadError (msg : String)
  | upsertError (msg : String)
deriving DecidableEq, Repr

/-- One iteration of the loop in `upload_to_mongodb` (`main.py` lines
202-217): load the staged artifact, upsert it, and append the file name to
`uploaded_files` only on success; every exception is caught per item. -/
def storeStep (env : StoreEnv) (st : SessionState) (p : FPath) :
    SessionState × StoreOutcome :=
  match st.fs.read p with
  | some (.js j) =>
    match env.insert_or_update_resume j with
    | .ok _ => ({ st with uploaded_files := st.uploaded_files ++ [p.nm] }, .ok)
    | .error m => (st, .upsertError m)
  | some _ => (st, .loadError "JSONDecodeError")
  | none => (st, .loadError "FileNotFoundError")

/-- The store loop over the standardized-files list. -/
def runStoreFrom (env : StoreEnv) :
    SessionState → List FPath → SessionState × List StoreOutcome
  | st, [] => (st, [])
  | st, p :: rest =>
    match storeStep env st p with
    | (st1, o) =>
      match runStoreFrom env st1 rest with
      | (st2, os) => (st2, o :: os)

/-- Observable result of one run of the store stage. -/
structure StoreStageOut where
  state : SessionState
  outcomes : List StoreOutcome
  escaped : Option String

/-- `upload_to_mongodb` (`main.py` lines 185-220): reset the completion flag
(but, unlike the other stages, not the cumulative `uploaded_files` list),
construct the DB manager (any exception is caught and aborts the stage
before any item), loop over `standardized_files`, then mark the stage
complete. -/
def upload_to_mongodb (env : StoreEnv) (st : SessionState) : StoreStageOut :=
  let st0 := { st with db_upload_complete := false }
  match env.initExn with
  | some _ => { state := st0, outcomes := [], escaped := none }
  | none =>
    match runStoreFrom env st0 st0.standardized_files with
    | (st1, os) =>
      { state := { st1 with db_upload_complete := true },
        outcomes := os, escaped := none }

/-- Iterated runs of the store stage (used to state cumulative behaviour). -/
def iterStore (env : StoreEnv) : Nat → SessionState → SessionState
  | 0, st => st
  | k + 1, st => iterStore env k (upload_to_mongodb env st).state

/-- The temp paths handed to `parse_resume` by one loop iteration (the
parser is invoked for every supported file, whatever the result). -/
def parseCallsOf (f : String × String) : List FPath :=
  if SUPPORTED_EXTENSIONS.contains (strToLower (pySuffix f.1)) then [tempPathOf f.1] else []

/-- The session state after one non-escaping parse-loop iteration. -/
def parseStepState (env : ParseEnv) (f : String × String) (st : SessionState) : SessionState :=
  let st1 := { st with fs := st.fs.write (tempPathOf f.1) (.blob f.2) }
  if SUPPORTED_EXTENSIONS.contains (strToLower (pySuffix f.1)) then
    match env.parse_resume (tempPathOf f.1) with
    | .ok content links =>
      let record := JVal.obj [("content", .str content),
                              ("links", .arr (links.map .str)),
                              ("timestamp", .str env.now),
                              ("original_filename", .str f.1)]
      { st1 with fs := st1.fs.write (parsedPathOf f.1) (.js record),
                 processed_files := st1.processed_files ++ [parsedPathOf f.1] }
    | _ => st1
  else st1

/-- The reset performed at the top of `standardize_resumes` (`main.py`
lines 109-110). -/
def resetStd (s : SessionState) : SessionState :=
  { s with standardizing_complete := false, standardized_files := [] }

/-- The completion mark at the bottom of `standardize_resumes`
(`main.py` line 183). -/
def markStdDone (s : SessionState) : SessionState :=
  { s with standardizing_complete := true }

/-- The outcome one store iteration gives a path, as a function of the
file system alone (the store loop never changes the staging area). -/
def storeOutcomeOf (env : StoreEnv) (fs : FS) (p : FPath) : StoreOutcome :=
  match fs.read p with
  | some (.js j) =>
    match env.insert_or_update_resume j with
    | .ok _ => .ok
    | .error m => .upsertError m
  | some _ => .loadError "JSONDecodeError"
  | none => .loadError "FileNotFoundError"

/-! ### Concrete instances used to exercise the stage functions -/

/-- A fresh session: all flags false, all lists empty, empty staging area. -/
def emptySession : SessionState := ⟨false, false, false, [], [], [], []⟩

/-- Staged parsed artifact path for `a.pdf`. -/
def pA : FPath := ⟨parsed_dir, "a.json"⟩

/-- A parsed record as the parse stage writes it. -/
def rawA : JVal := .obj [("content", .str "hello"), ("links", .arr [.str "x"]),
                         ("timestamp", .str "T"), ("original_filename", .str "a.pdf")]

/-- A well-formed LLM response wrapped in prose. -/
def respA : String := "Sure! \x7b\"name\": \"Ada\"\x7d hope this helps"

/-- The JSON object inside `respA`. -/
def parsedA : JVal := .obj [("name", .str "Ada")]

/-- A standardizer environment whose LLM returns `respA` and whose JSON
parser accepts exactly its sanitized form. -/
def stdEnvA : StdEnv :=
  { init := .ok,
    call_azure_llm := fun _ => .ok respA,
    jsonParse := fun s => if s = clean_llm_response respA then some parsedA else none,
    now := "T2" }

/-- A session holding the single parsed record `rawA`. -/
def stA : SessionState :=
  { emptySession with processed_files := [pA], fs := [(pA, .js rawA)] }

/-- Staged parsed artifact path for an empty-content record. -/
def pE : FPath := ⟨parsed_dir, "e.json"⟩

/-- A parsed record whose content is whitespace only. -/
def rawE : JVal := .obj [("content", .str "  "), ("original_filename", .str "e.pdf")]

/-- A session holding the single empty-content record `rawE`. -/
def stE : SessionState :=
  { emptySession with processed_files := [pE], fs := [(pE, .js rawE)] }

/-- An LLM response with an opening brace but unparseable JSON. -/
def respM : String := "here you go \x7b name: Ada"

/-- A standardizer environment whose LLM returns garbage that never parses. -/
def stdEnvM : StdEnv :=
  { init := .ok,
    call_azure_llm := fun _ => .ok respM,
    jsonParse := fun _ => none,
    now := "T3" }

/-- A parser environment that always succeeds and never raises. -/
def parseEnvA : ParseEnv :=
  ⟨fun _ => none, fun _ => .ok "hello" ["x"], "T"⟩

/-- A parser environment whose `ResumeParser()` construction raises at the
second loop iteration. -/
def parseEnvBad : ParseEnv :=
  ⟨fun i => if i = 1 then some "RuntimeError: no running event loop" else none,
   fun _ => .ok "hello" [], "T"⟩

/-- A two-file batch of supported uploads. -/
def filesAB : List (String × String) := [("a.pdf", "BLOBA"), ("b.pdf", "BLOBB")]

/-- A session in which the standardized artifact for stem `a` already
exists (the item is in the `Standardized` state). -/
def stC6 : SessionState :=
  { emptySession with fs := [(⟨standardized_dir, "a.json"⟩, .js parsedA)] }

/-- A store environment that connects and upserts successfully. -/
def storeEnvA : StoreEnv := ⟨none, fun _ => .ok ()⟩

/-- Staged standardized artifact path for `a.pdf`. -/
def qA : FPath := ⟨standardized_dir, "a.json"⟩

/-- A session holding one standardized artifact, ready for the store stage. -/
def stStore : SessionState :=
  { emptySession with standardized_files := [qA], fs := [(qA, .js parsedA)] }

/-! ### Helper lemmas: strings and paths -/

theorem String.mk_append_mk (a b : List Char) :
    String.mk a ++ String.mk b = String.mk (a ++ b) := rfl

theorem stem_append_suffix (s : String) : pyStem s ++ pySuffix s = s := by
  unfold pyStem pySuffix pySplitExt
  cases h : lastDotPos s.data with
  | none => simp
  | some n =>
    dsimp only
    by_cases hc : 0 < n ∧ n < s.data.length - 1
    · rw [if_pos hc]
      show String.mk (s.data.take n) ++ String.mk (s.data.drop n) = s
      rw [String.mk_append_mk, List.take_append_drop]
    · rw [if_neg hc]
      simp

theorem head_drop_eq_get (cs : List Char) (n : Nat) :
    (cs.drop n).head? = cs.get? n := by
  induction cs generalizing n with
  | nil => cases n <;> rfl
  | cons c cs ih => cases n with
    | zero => rfl
    | succ m => simp only [List.drop_succ_cons, List.get?_cons_succ]; exact ih m

theorem lastDotPos_get {cs : List Char} {n : Nat} (h : lastDotPos cs = some n) :
    cs.get? n = some '.' := by
  induction cs generalizing n with
  | nil => simp [lastDotPos] at h
  | cons c cs ih =>
    unfold lastDotPos at h
    cases hm : lastDotPos cs with
    | some m =>
      rw [hm] at h
      cases h
      simp only [List.get?]
      exact ih hm
    | none =>
      rw [hm] at h
      by_cases hc : c = '.'
      · simp [hc] at h
        subst hc
        cases h
        rfl
      · simp [hc] at h

theorem suffix_empty_or_dot (s : String) :
    pySuffix s = "" ∨ (pySuffix s).data.head? = some '.' := by
  unfold pySuffix pySplitExt
  cases h : lastDotPos s.data with
  | none => left; rfl
  | some n =>
    dsimp only
    by_cases hc : 0 < n ∧ n < s.data.length - 1
    · right
      rw [if_pos hc]
      show (s.data.drop n).head? = some '.'
      rw [head_drop_eq_get]
      exact lastDotPos_get h
    · left
      rw [if_neg hc]

theorem stem_raw_ne (s : String) : pyStem s ++ "_raw.md" ≠ s := by
  intro h
  have hs : pyStem s ++ pySuffix s = s := stem_append_suffix s
  have hd : ("_raw.md" : String).data = (pySuffix s).data := by
    have : (pyStem s ++ ("_raw.md" : String)).data = (pyStem s ++ pySuffix s).data := by
      rw [h, hs]
    simpa using List.append_cancel_left this
  rcases suffix_empty_or_dot s with he | hdot
  · rw [he] at hd
    simp at hd
  · rw [← hd] at hdot
    simp at hdot

theorem stdRawLogPath_ne_stdOutPath (p : FPath) : stdRawLogPath p ≠ stdOutPath p := by
  unfold stdRawLogPath stdOutPath
  intro h
  have := congrArg FPath.nm h
  exact stem_raw_ne p.nm this

/-! ### Helper lemmas: the file system -/

theorem FS.read_write_self (fs : FS) (p : FPath) (c : FileContent) :
    (fs.write p c).read p = some c := by
  simp [FS.write, FS.read]

theorem FS.read_write_ne (fs : FS) {p q : FPath} (h : p ≠ q) (c : FileContent) :
    (fs.write p c).read q = fs.read q := by
  simp [FS.write, FS.read, h]

/-! ### Helper lemmas: ordered dictionaries -/

theorem lookupKV_setKV_self (kvs : List (String × JVal)) (k : String) (v : JVal) :
    lookupKV (setKV kvs k v) k = some v := by
  induction kvs with
  | nil => simp [setKV, lookupKV]
  | cons kv rest ih =>
    obtain ⟨k', v'⟩ := kv
    by_cases h : k' = k
    · simp [setKV, lookupKV, h]
    · simp [setKV, lookupKV, h, ih]

theorem lookupKV_setKV_ne (kvs : List (String × JVal)) {k k' : String} (v : JVal)
    (h : k' ≠ k) : lookupKV (setKV kvs k v) k' = lookupKV kvs k' := by
  induction kvs with
  | nil => simp [setKV, lookupKV, Ne.symm h]
  | cons kv rest ih =>
    obtain ⟨k0, v0⟩ := kv
    by_cases h0 : k0 = k
    · subst h0
      simp [setKV, lookupKV, Ne.symm h]
    · simp [setKV, lookupKV, h0, ih]

theorem JVal.isObj_set {j : JVal} (h : j.isObj = true) (k : String) (v : JVal) :
    (j.set k v).isObj = true := by
  cases j <;> simp_all [JVal.isObj, JVal.set]

theorem JVal.lookup_set_self {j : JVal} (h : j.isObj = true) (k : String) (v : JVal) :
    (j.set k v).lookup k = some v := by
  cases j <;> simp_all [JVal.isObj, JVal.set, JVal.lookup, lookupKV_setKV_self]

theorem JVal.lookup_set_ne {j : JVal} (h : j.isObj = true) {k k' : String} (v : JVal)
    (hne : k' ≠ k) : (j.set k v).lookup k' = j.lookup k' := by
  cases j <;> simp_all [JVal.isObj, JVal.set, JVal.lookup, lookupKV_setKV_ne _ _ hne]

/-! ### Helper lemmas: the standardize item step -/

/-- When the staged artifact already exists, the step is a pure cache hit:
no LLM call, no file-system change, and the artifact path is appended to the
succeeded list (`main.py` lines 137-141). -/
theorem standardizeStep_cached {st : SessionState} {p : FPath}
    (h : st.fs.fileExists (stdOutPath p) = true) (env : StdEnv) :
    standardizeStep env st p =
      { st := { st with standardized_files := st.standardized_files ++ [stdOutPath p] },
        outcome := .cached, llmCalls := 0 } := by
  unfold standardizeStep
  simp [h]

/-- Case analysis over every branch of `standardizeStep`: the step never
touches `processed_files` or `uploaded_files`; it appends the artifact path
to `standardized_files` exactly when the item succeeded (fresh or cached);
the staged artifact is untouched unless the item fully succeeded; and a
fresh success means the whole sanitize-parse-stamp chain went through and
the artifact now holds the stamped record. -/
theorem standardizeStep_master (env : StdEnv) (st : SessionState) (p : FPath) :
    (standardizeStep env st p).st.processed_files = st.processed_files ∧
    (standardizeStep env st p).st.uploaded_files = st.uploaded_files ∧
    (standardizeStep env st p).st.standardized_files =
      (if (standardizeStep env st p).outcome = .cached ∨ (standardizeStep env st p).outcome = .ok
       then st.standardized_files ++ [stdOutPath p] else st.standardized_files) ∧
    ((standardizeStep env st p).outcome ≠ .ok →
      (standardizeStep env st p).st.fs.read (stdOutPath p) = st.fs.read (stdOutPath p)) ∧
    ((standardizeStep env st p).outcome = .ok →
      ∃ raw content resp parsed,
        st.fs.read p = some (.js raw) ∧
        getContentField raw = .ok content ∧
        (pyStrip content).isEmpty = false ∧
        env.call_azure_llm (make_standardizer_prompt content (jGetD raw "links" (.arr []))) = .ok resp ∧
        env.jsonParse (clean_llm_response resp) = some parsed ∧
        parsed.isObj = true ∧
        (standardizeStep env st p).st.fs.read (stdOutPath p) = some (.js (stampRecord parsed env.now p raw))) := by
  cases hE : st.fs.fileExists (stdOutPath p)
  case true => simp [standardizeStep, hE]
  case false =>
  cases hR : st.fs.read p with
  | none => simp [standardizeStep, hE, hR]
  | some fc =>
    cases fc with
    | txt s => simp [standardizeStep, hE, hR]
    | blob s => simp [standardizeStep, hE, hR]
    | js raw =>
      cases hC : getContentField raw with
      | error m => simp [standardizeStep, hE, hR, hC]
      | ok content =>
        cases hS : (pyStrip content).isEmpty
        case true => simp [standardizeStep, hE, hR, hC, hS]
        case false =>
        cases hL : env.call_azure_llm (make_standardizer_prompt content (jGetD raw "links" (.arr []))) with
        | error m => simp [standardizeStep, hE, hR, hC, hS, hL]
        | ok resp =>
          cases hP : env.jsonParse (clean_llm_response resp) with
          | none =>
            simp [standardizeStep, hE, hR, hC, hS, hL, hP,
                  FS.read_write_ne _ (stdRawLogPath_ne_stdOutPath p)]
          | some parsed =>
            cases hO : parsed.isObj
            case false =>
              simp [standardizeStep, hE, hR, hC, hS, hL, hP, hO,
                    FS.read_write_ne _ (stdRawLogPath_ne_stdOutPath p)]
            case true =>
              refine ⟨?_, ?_, ?_, ?_,
                  fun _ => ⟨raw, content, resp, parsed, rfl, hC, hS, hL, hP, hO, ?_⟩⟩ <;>
                simp [standardizeStep, hE, hR, hC, hS, hL, hP, hO, FS.read_write_self]

theorem standardizeStep_processed (env : StdEnv) (st : SessionState) (p : FPath) :
    (standardizeStep env st p).st.processed_files = st.processed_files :=
  (standardizeStep_master env st p).1

/-- A fresh success leaves the staged artifact present. -/
theorem standardizeStep_ok_artifact {env : StdEnv} {st : SessionState} {p : FPath}
    (h : (standardizeStep env st p).outcome = .ok) :
    (standardizeStep env st p).st.fs.fileExists (stdOutPath p) = true := by
  obtain ⟨raw, content, resp, parsed, -, -, -, -, -, -, hread⟩ :=
    (standardizeStep_master env st p).2.2.2.2 h
  simp [FS.fileExists, hread]

/-! ### Helper lemmas: the parse stage -/

/-- When the per-iteration parser construction does not raise, one loop
iteration is described by the pure classification functions. -/
theorem parseStep_eq {env : ParseEnv} {i : Nat} (f : String × String)
    (st : SessionState) (h : env.initExn i = none) :
    parseStep env i f st =
      .ok (parseStepState env f st, parseOutcomeOf env f, parseCallsOf f) := by
  unfold parseStep parseStepState parseOutcomeOf parseCallsOf
  rw [h]
  cases hc : SUPPORTED_EXTENSIONS.contains (strToLower (pySuffix f.1))
  · simp [hc]
  · cases hp : env.parse_resume (tempPathOf f.1) <;> simp [hc, hp]

/-- With no parser-construction failures, the parse loop is a fold of the
per-item state transformer, with one outcome per input file and one
`parse_resume` call per supported file. -/
theorem runParseFrom_eq (env : ParseEnv) (hinit : ∀ k, env.initExn k = none) :
    ∀ (files : List (String × String)) (st : SessionState) (i : Nat),
      runParseFrom env st i files =
        (files.foldl (fun s f => parseStepState env f s) st,
         files.map (parseOutcomeOf env),
         (files.map parseCallsOf).flatten,
         none) := by
  intro files
  induction files with
  | nil => intro st i; simp [runParseFrom]
  | cons f rest ih =>
    intro st i
    rw [runParseFrom, parseStep_eq f st (hinit i)]
    dsimp only
    rw [ih (parseStepState env f st) (i + 1)]
    simp

theorem parseStepState_processed (env : ParseEnv) (f : String × String) (st : SessionState) :
    (parseStepState env f st).processed_files =
      st.processed_files ++
        (match parseOutcomeOf env f with
         | .ok => [parsedPathOf f.1]
         | _ => []) := by
  unfold parseStepState parseOutcomeOf
  cases hc : SUPPORTED_EXTENSIONS.contains (strToLower (pySuffix f.1))
  · simp [hc]
  · cases hp : env.parse_resume (tempPathOf f.1) <;> simp [hc, hp]

theorem foldl_parseStepState_processed (env : ParseEnv) :
    ∀ (files : List (String × String)) (st : SessionState),
      (files.foldl (fun s f => parseStepState env f s) st).processed_files =
        st.processed_files ++ parseSuccessPaths env files := by
  intro files
  induction files with
  | nil => intro st; simp [parseSuccessPaths]
  | cons f rest ih =>
    intro st
    rw [List.foldl_cons, ih (parseStepState env f st)]
    rw [parseStepState_processed]
    unfold parseSuccessPaths
    cases ho : parseOutcomeOf env f <;> simp [List.filterMap_cons, ho, parseSuccessPaths]

/-- Closed form of a whole parse-stage run when no parser construction
raises: flags and `processed_files` reset, fold over the batch, one outcome
per file, completion flag set at the end, no escaped exception. -/
theorem process_uploaded_files_eq (env : ParseEnv) (files : List (String × String))
    (st : SessionState) (hinit : ∀ k, env.initExn k = none) :
    process_uploaded_files env files st =
      { state :=
          { (files.foldl (fun s f => parseStepState env f s)
              { st with processing_complete := false, standardizing_complete := false,
                        db_upload_complete := false, processed_files := [] })
            with processing_complete := true },
        outcomes := files.map (parseOutcomeOf env),
        parseCalls := (files.map parseCallsOf).flatten,
        escaped := none } := by
  unfold process_uploaded_files
  simp only [runParseFrom_eq env hinit]

/-- With no parser-construction failures, the succeeded-output list of the
parse stage is exactly the artifact paths of the files whose outcome is
success. -/
theorem process_uploaded_files_processed (env : ParseEnv) (files : List (String × String))
    (st : SessionState) (hinit : ∀ k, env.initExn k = none) :
    (process_uploaded_files env files st).state.processed_files =
      parseSuccessPaths env files := by
  rw [process_uploaded_files_eq env files st hinit]
  show (files.foldl (fun s f => parseStepState env f s) _).processed_files = _
  rw [foldl_parseStepState_processed]
  rfl

/-! ### Helper lemmas: the standardize run -/

theorem runStdFrom_processed (env : StdEnv) :
    ∀ (l : List FPath) (st : SessionState),
      (runStdFrom env st l).1.processed_files = st.processed_files := by
  intro l
  induction l with
  | nil => intro st; rfl
  | cons p rest ih =>
    intro st
    rw [runStdFrom]
    dsimp only
    rw [show (runStdFrom env (standardizeStep env st p).st rest).1.processed_files =
          (standardizeStep env st p).st.processed_files from ?_]
    · exact standardizeStep_processed env st p
    · cases h : runStdFrom env (standardizeStep env st p).st rest with
      | mk st2 rest2 =>
        have := ih (standardizeStep env st p).st
        rw [h] at this
        exact this

theorem runStdFrom_lengths (env : StdEnv) :
    ∀ (l : List FPath) (st : SessionState),
      (runStdFrom env st l).2.1.length = l.length ∧
      (runStdFrom env st l).2.2.length = l.length := by
  intro l
  induction l with
  | nil => intro st; exact ⟨rfl, rfl⟩
  | cons p rest ih =>
    intro st
    rw [runStdFrom]
    dsimp only
    cases h : runStdFrom env (standardizeStep env st p).st rest with
    | mk st2 rest2 =>
      have := ih (standardizeStep env st p).st
      rw [h] at this
      cases rest2 with
      | mk os cs => simpa using this

/-- Closed form of the succeeded list of a standardize run: the initial
list followed by the staged-artifact paths of exactly those processed
items whose outcome in this very run was a cache hit or a fresh success —
items that failed in the run contribute nothing. -/
theorem runStdFrom_standardized (env : StdEnv) :
    ∀ (l : List FPath) (st : SessionState),
      (runStdFrom env st l).1.standardized_files =
        st.standardized_files ++
          (l.zip (runStdFrom env st l).2.1).filterMap
            (fun pc => if pc.2 = StdOutcome.cached ∨ pc.2 = StdOutcome.ok
                       then some (stdOutPath pc.1) else none) := by
  intro l
  induction l with
  | nil => intro st; simp [runStdFrom]
  | cons p rest ih =>
    intro st
    rw [runStdFrom]
    dsimp only
    rw [ih (standardizeStep env st p).st]
    rw [(standardizeStep_master env st p).2.2.1]
    rw [List.zip_cons_cons, List.filterMap_cons]
    dsimp only
    by_cases hsucc : (standardizeStep env st p).outcome = StdOutcome.cached ∨
        (standardizeStep env st p).outcome = StdOutcome.ok
    · rw [if_pos hsucc, if_pos hsucc]
      simp [List.append_assoc]
    · rw [if_neg hsucc, if_neg hsucc]

/-! ### Helper lemmas: the store stage -/

theorem storeStep_ok {env : StoreEnv} {st : SessionState} {p : FPath} {j : JVal}
    (hr : st.fs.read p = some (.js j))
    (hu : env.insert_or_update_resume j = .ok ()) :
    storeStep env st p =
      ({ st with uploaded_files := st.uploaded_files ++ [p.nm] }, .ok) := by
  unfold storeStep
  rw [hr]
  simp [hu]

/-- When every artifact is readable and every upsert succeeds, one store run
appends exactly the artifact file names to `uploaded_files` and changes
nothing else. -/
theorem runStoreFrom_all_ok (env : StoreEnv)
    (hu : ∀ j, env.insert_or_update_resume j = .ok ()) :
    ∀ (l : List FPath) (st : SessionState),
      (∀ p ∈ l, ∃ j, st.fs.read p = some (.js j)) →
      runStoreFrom env st l =
        ({ st with uploaded_files := st.uploaded_files ++ l.map (fun p => p.nm) },
         l.map (fun _ => .ok)) := by
  intro l
  induction l with
  | nil => intro st _; simp [runStoreFrom]
  | cons p rest ih =>
    intro st hread
    obtain ⟨j, hj⟩ := hread p (List.mem_cons_self p rest)
    rw [runStoreFrom, storeStep_ok hj (hu j)]
    dsimp only
    rw [ih { st with uploaded_files := st.uploaded_files ++ [p.nm] }
        (fun q hq => hread q (List.mem_cons_of_mem p hq))]
    simp

theorem upload_to_mongodb_all_ok (env : StoreEnv) (st : SessionState)
    (hinit : env.initExn = none)
    (hu : ∀ j, env.insert_or_update_resume j = .ok ())
    (hread : ∀ p ∈ st.standardized_files, ∃ j, st.fs.read p = some (.js j)) :
    upload_to_mongodb env st =
      { state := { st with db_upload_complete := true,
                           uploaded_files :=
                             st.uploaded_files ++ st.standardized_files.map (fun p => p.nm) },
        outcomes := st.standardized_files.map (fun _ => .ok),
        escaped := none } := by
  unfold upload_to_mongodb
  rw [hinit]
  dsimp only
  rw [runStoreFrom_all_ok env hu st.standardized_files
      { st with db_upload_complete := false } (fun q hq => hread q hq)]

/-! ### Claim theorems -/

/-- C3: for every ParsedRecord whose content is empty or whitespace-only,
the standardize stage fails that item with the empty-content outcome and
issues zero LLM calls for it; the check happens before any prompt is built
or call dispatched, so the file system (and hence any artifact or log) is
untouched. -/
theorem standardize_empty_content_no_llm (env : StdEnv) (st : SessionState) (p : FPath)
    (raw : JVal) (s : String)
    (hnc : st.fs.fileExists (stdOutPath p) = false)
    (hread : st.fs.read p = some (.js raw))
    (hc : getContentField raw = .ok s)
    (hs : (pyStrip s).isEmpty = true) :
    (standardizeStep env st p).outcome = .emptyContent ∧
    (standardizeStep env st p).llmCalls = 0 ∧
    (standardizeStep env st p).st.fs = st.fs := by
  have hstep : standardizeStep env st p =
      { st := st, outcome := .emptyContent, llmCalls := 0 } := by
    unfold standardizeStep
    simp [hnc, hread, hc, hs]
  rw [hstep]
  exact ⟨rfl, rfl, rfl⟩

theorem standardize_empty_content_no_llm_witness :
    stE.fs.fileExists (stdOutPath pE) = false ∧
    stE.fs.read pE = some (.js rawE) ∧
    getContentField rawE = .ok "  " ∧
    (pyStrip "  ").isEmpty = true ∧
    ((standardizeStep stdEnvA stE pE).outcome = .emptyContent ∧
     (standardizeStep stdEnvA stE pE).llmCalls = 0 ∧
     (standardizeStep stdEnvA stE pE).st.fs = stE.fs) :=
  ⟨rfl, rfl, rfl, rfl,
   standardize_empty_content_no_llm stdEnvA stE pE rawE "  " rfl rfl rfl rfl⟩

/-- C7: for every LLM response that fails to parse as JSON after
sanitization, the standardize stage fails that item with the
malformed-response outcome, and the raw, pre-sanitization response text is
preserved in the sibling diagnostic artifact, which was written before
sanitization and parsing. -/
theorem malformed_response_raw_preserved (env : StdEnv) (st : SessionState) (p : FPath)
    (raw : JVal) (s resp : String)
    (hnc : st.fs.fileExists (stdOutPath p) = false)
    (hread : st.fs.read p = some (.js raw))
    (hc : getContentField raw = .ok s)
    (hs : (pyStrip s).isEmpty = false)
    (hllm : env.call_azure_llm (make_standardizer_prompt s (jGetD raw "links" (.arr []))) = .ok resp)
    (hparse : env.jsonParse (clean_llm_response resp) = none) :
    (standardizeStep env st p).outcome = .malformed ∧
    (standardizeStep env st p).st.fs.read (stdRawLogPath p) = some (.txt resp) := by
  have hstep : standardizeStep env st p =
      { st := { st with fs := st.fs.write (stdRawLogPath p) (.txt resp) },
        outcome := .malformed, llmCalls := 1 } := by
    unfold standardizeStep
    simp [hnc, hread, hc, hs, hllm, hparse]
  rw [hstep]
  exact ⟨rfl, FS.read_write_self _ _ _⟩

theorem malformed_response_raw_preserved_witness :
    stA.fs.fileExists (stdOutPath pA) = false ∧
    stdEnvM.jsonParse (clean_llm_response respM) = none ∧
    ((standardizeStep stdEnvM stA pA).outcome = .malformed ∧
     (standardizeStep stdEnvM stA pA).st.fs.read (stdRawLogPath pA) = some (.txt respM)) :=
  ⟨rfl, rfl,
   malformed_response_raw_preserved stdEnvM stA pA rawA "hello" respM rfl rfl rfl rfl rfl rfl⟩

/-- C8: artifact presence implies stage completion: the staged standardized
artifact of an item is untouched by the step unless the item fully
succeeded, and on success it is written only after the LLM response has
been sanitized, parsed as JSON and stamped with metadata (the value on disk
is exactly the stamped parse result). -/
theorem artifact_presence_implies_success (env : StdEnv) (st : SessionState) (p : FPath) :
    ((standardizeStep env st p).outcome ≠ .ok →
      (standardizeStep env st p).st.fs.read (stdOutPath p) = st.fs.read (stdOutPath p)) ∧
    ((standardizeStep env st p).outcome = .ok →
      ∃ raw content resp parsed,
        st.fs.read p = some (.js raw) ∧
        getContentField raw = .ok content ∧
        (pyStrip content).isEmpty = false ∧
        env.call_azure_llm (make_standardizer_prompt content (jGetD raw "links" (.arr []))) = .ok resp ∧
        env.jsonParse (clean_llm_response resp) = some parsed ∧
        parsed.isObj = true ∧
        (standardizeStep env st p).st.fs.read (stdOutPath p) =
          some (.js (stampRecord parsed env.now p raw))) :=
  ⟨(standardizeStep_master env st p).2.2.2.1, (standardizeStep_master env st p).2.2.2.2⟩

theorem artifact_presence_implies_success_witness :
    (standardizeStep stdEnvA stA pA).outcome = .ok ∧
    (∃ raw content resp parsed,
        stA.fs.read pA = some (.js raw) ∧
        getContentField raw = .ok content ∧
        (pyStrip content).isEmpty = false ∧
        stdEnvA.call_azure_llm (make_standardizer_prompt content (jGetD raw "links" (.arr []))) = .ok resp ∧
        stdEnvA.jsonParse (clean_llm_response resp) = some parsed ∧
        parsed.isObj = true ∧
        (standardizeStep stdEnvA stA pA).st.fs.read (stdOutPath pA) =
          some (.js (stampRecord parsed stdEnvA.now pA raw))) :=
  ⟨rfl, (artifact_presence_implies_success stdEnvA stA pA).2 rfl⟩

/-- C9: the parse stage always records `original_filename` in the parsed
record it stages, and a successful standardization stamps the resulting
canonical record with a timestamp, the `source_file` path and the
carried-over `original_filename` before the record is persisted (the staged
artifact holds exactly the stamped record, whose three metadata keys read
back as stamped). -/
theorem success_stamps_metadata
    (envP : ParseEnv) (f : String × String) (stP : SessionState) (c : String) (ls : List String)
    (hext : SUPPORTED_EXTENSIONS.contains (strToLower (pySuffix f.1)) = true)
    (hpr : envP.parse_resume (tempPathOf f.1) = .ok c ls)
    (env : StdEnv) (st : SessionState) (p : FPath) (raw parsed v : JVal) (s resp : String)
    (hnc : st.fs.fileExists (stdOutPath p) = false)
    (hread : st.fs.read p = some (.js raw))
    (hc : getContentField raw = .ok s)
    (hs : (pyStrip s).isEmpty = false)
    (hllm : env.call_azure_llm (make_standardizer_prompt s (jGetD raw "links" (.arr []))) = .ok resp)
    (hparse : env.jsonParse (clean_llm_response resp) = some parsed)
    (hobj : parsed.isObj = true)
    (hofn : raw.lookup "original_filename" = some v) :
    (parseStepState envP f stP).fs.read (parsedPathOf f.1) =
      some (.js (JVal.obj [("content", .str c), ("links", .arr (ls.map .str)),
                           ("timestamp", .str envP.now), ("original_filename", .str f.1)])) ∧
    (standardizeStep env st p).outcome = .ok ∧
    (standardizeStep env st p).st.fs.read (stdOutPath p) =
      some (.js (stampRecord parsed env.now p raw)) ∧
    (stampRecord parsed env.now p raw).lookup "timestamp" = some (.str env.now) ∧
    (stampRecord parsed env.now p raw).lookup "source_file" = some (.str p.full) ∧
    (stampRecord parsed env.now p raw).lookup "original_filename" = some v := by
  have hpart1 : (parseStepState envP f stP).fs.read (parsedPathOf f.1) =
      some (.js (JVal.obj [("content", .str c), ("links", .arr (ls.map .str)),
                           ("timestamp", .str envP.now), ("original_filename", .str f.1)])) := by
    unfold parseStepState
    simp [List.mem_of_elem_eq_true hext, hpr, FS.read_write_self]
  have hstep : standardizeStep env st p =
      { st := { st with
          fs := (st.fs.write (stdRawLogPath p) (.txt resp)).write (stdOutPath p)
                  (.js (stampRecord parsed env.now p raw)),
          standardized_files := st.standardized_files ++ [stdOutPath p] },
        outcome := .ok, llmCalls := 1 } := by
    unfold standardizeStep
    simp [hnc, hread, hc, hs, hllm, hparse, hobj]
  have h1 : (parsed.set "timestamp" (.str env.now)).isObj = true :=
    JVal.isObj_set hobj _ _
  have h2 : ((parsed.set "timestamp" (.str env.now)).set "source_file" (.str p.full)).isObj = true :=
    JVal.isObj_set h1 _ _
  have hts : (stampRecord parsed env.now p raw).lookup "timestamp" = some (.str env.now) := by
    unfold stampRecord
    rw [hofn]
    rw [JVal.lookup_set_ne h2 _ (by decide)]
    rw [JVal.lookup_set_ne h1 _ (by decide)]
    exact JVal.lookup_set_self hobj _ _
  have hsf : (stampRecord parsed env.now p raw).lookup "source_file" = some (.str p.full) := by
    unfold stampRecord
    rw [hofn]
    rw [JVal.lookup_set_ne h2 _ (by decide)]
    exact JVal.lookup_set_self h1 _ _
  have hof : (stampRecord parsed env.now p raw).lookup "original_filename" = some v := by
    unfold stampRecord
    rw [hofn]
    exact JVal.lookup_set_self h2 _ _
  refine ⟨hpart1, ?_, ?_, hts, hsf, hof⟩
  · rw [hstep]
  · rw [hstep]
    exact FS.read_write_self _ _ _

theorem success_stamps_metadata_witness :
    (parseStepState parseEnvA ("a.pdf", "BLOBA") emptySession).fs.read (parsedPathOf "a.pdf") =
      some (.js (JVal.obj [("content", .str "hello"), ("links", .arr [.str "x"]),
                           ("timestamp", .str "T"), ("original_filename", .str "a.pdf")])) ∧
    (standardizeStep stdEnvA stA pA).outcome = .ok ∧
    (standardizeStep stdEnvA stA pA).st.fs.read (stdOutPath pA) =
      some (.js (stampRecord parsedA stdEnvA.now pA rawA)) ∧
    (stampRecord parsedA stdEnvA.now pA rawA).lookup "timestamp" = some (.str stdEnvA.now) ∧
    (stampRecord parsedA stdEnvA.now pA rawA).lookup "source_file" = some (.str pA.full) ∧
    (stampRecord parsedA stdEnvA.now pA rawA).lookup "original_filename" =
      some (.str "a.pdf") :=
  success_stamps_metadata parseEnvA ("a.pdf", "BLOBA") emptySession "hello" ["x"]
    rfl rfl stdEnvA stA pA rawA parsedA (.str "a.pdf") "hello" respA
    rfl rfl rfl rfl rfl rfl rfl rfl

/-- C2: every input file whose extension is outside the supported set is
reported by the parse stage with the unsupported outcome, and the
succeeded-output list (`processed_files`) contains only artifacts of files
whose outcome was success — so the unsupported file never contributes to
it. -/
theorem parse_unsupported_reported_failed (env : ParseEnv)
    (files : List (String × String)) (st : SessionState) (i : Nat) (f : String × String)
    (hf : files.get? i = some f)
    (hext : SUPPORTED_EXTENSIONS.contains (strToLower (pySuffix f.1)) = false)
    (hinit : ∀ k, env.initExn k = none) :
    (process_uploaded_files env files st).outcomes.get? i = some .unsupported ∧
    parseOutcomeOf env f = .unsupported ∧
    ∀ q ∈ (process_uploaded_files env files st).state.processed_files,
      ∃ f', f' ∈ files ∧ parseOutcomeOf env f' = .ok ∧ q = parsedPathOf f'.1 := by
  have hout : parseOutcomeOf env f = .unsupported := by
    unfold parseOutcomeOf
    rw [hext]
    rfl
  refine ⟨?_, hout, ?_⟩
  · rw [process_uploaded_files_eq env files st hinit]
    show (files.map (parseOutcomeOf env)).get? i = some .unsupported
    rw [show ∀ (l : List (String × String)) (g : String × String → ParseOutcome) (n : Nat),
          (l.map g).get? n = (l.get? n).map g from fun l g n => by
        simp [List.get?_eq_getElem?, List.getElem?_map], hf]
    simp [hout]
  · intro q hq
    rw [process_uploaded_files_processed env files st hinit] at hq
    unfold parseSuccessPaths at hq
    obtain ⟨f', hf', hmatch⟩ := List.mem_filterMap.1 hq
    cases ho : parseOutcomeOf env f' with
    | ok =>
      rw [ho] at hmatch
      exact ⟨f', hf', ho, (Option.some_inj.1 hmatch).symm⟩
    | unsupported => rw [ho] at hmatch; cases hmatch
    | noContent => rw [ho] at hmatch; cases hmatch
    | parseError m => rw [ho] at hmatch; cases hmatch

theorem parse_unsupported_reported_failed_witness :
    ([("a.pdf", "BLOBA"), ("b.txt", "NOTES")].get? 1 = some ("b.txt", "NOTES")) ∧
    SUPPORTED_EXTENSIONS.contains (strToLower (pySuffix "b.txt")) = false ∧
    ((process_uploaded_files parseEnvA [("a.pdf", "BLOBA"), ("b.txt", "NOTES")]
        emptySession).outcomes.get? 1 = some .unsupported ∧
     parseOutcomeOf parseEnvA ("b.txt", "NOTES") = .unsupported ∧
     ∀ q ∈ (process_uploaded_files parseEnvA [("a.pdf", "BLOBA"), ("b.txt", "NOTES")]
              emptySession).state.processed_files,
       ∃ f', f' ∈ [("a.pdf", "BLOBA"), ("b.txt", "NOTES")] ∧
         parseOutcomeOf parseEnvA f' = .ok ∧ q = parsedPathOf f'.1) :=
  ⟨rfl, rfl,
   parse_unsupported_reported_failed parseEnvA [("a.pdf", "BLOBA"), ("b.txt", "NOTES")]
     emptySession 1 ("b.txt", "NOTES") rfl rfl (fun _ => rfl)⟩

/-- Closed form of a standardize-stage run over a single processed record. -/
theorem standardize_resumes_singleton (env : StdEnv) (s : SessionState) (p : FPath)
    (hinit : env.init = .ok) (hproc : s.processed_files = [p]) :
    standardize_resumes env s =
      { state := markStdDone (standardizeStep env (resetStd s) p).st,
        outcomes := [(standardizeStep env (resetStd s) p).outcome],
        llmCalls := [(standardizeStep env (resetStd s) p).llmCalls],
        escaped := none } := by
  unfold standardize_resumes markStdDone resetStd
  rw [hinit]
  dsimp only
  rw [show ({ s with standardizing_complete := false,
                     standardized_files := [] } : SessionState).processed_files = [p] from hproc]
  simp only [runStdFrom]

/-- A standardize-stage run over a single record whose staged artifact is
already present is a pure cache hit. -/
theorem standardize_resumes_singleton_cached (env : StdEnv) (s : SessionState) (p : FPath)
    (hinit : env.init = .ok) (hproc : s.processed_files = [p])
    (hart : s.fs.fileExists (stdOutPath p) = true) :
    standardize_resumes env s =
      { state := { s with standardizing_complete := true,
                          standardized_files := [stdOutPath p] },
        outcomes := [.cached], llmCalls := [0], escaped := none } := by
  rw [standardize_resumes_singleton env s p hinit hproc]
  rw [standardizeStep_cached (show (resetStd s).fs.fileExists (stdOutPath p) = true
      from hart) env]
  rfl

/-- C1: if the staged standardized artifact for a record's filename stem
already exists, running the standardize stage a second time over that
record does not invoke the LLM for it and yields the identical canonical
record: the artifact on disk is reused unchanged and its path is appended
to the succeeded list. -/
theorem standardize_rerun_reuses_artifact
    (env env' : StdEnv) (st : SessionState) (p : FPath)
    (hp : st.processed_files = [p])
    (hinit : env'.init = .ok)
    (hok : (standardize_resumes env st).outcomes = [.ok]) :
    (standardize_resumes env' (standardize_resumes env st).state).llmCalls = [0] ∧
    (standardize_resumes env' (standardize_resumes env st).state).outcomes = [.cached] ∧
    (standardize_resumes env' (standardize_resumes env st).state).state.fs.read (stdOutPath p) =
      (standardize_resumes env st).state.fs.read (stdOutPath p) ∧
    (standardize_resumes env' (standardize_resumes env st).state).state.standardized_files =
      [stdOutPath p] := by
  cases henv : env.init with
  | valueError m => simp [standardize_resumes, henv] at hok
  | otherExn m => simp [standardize_resumes, henv] at hok
  | ok =>
    rw [standardize_resumes_singleton env st p henv hp] at hok ⊢
    have hok' : (standardizeStep env (resetStd st) p).outcome = .ok := by
      simpa using hok
    have hart := standardizeStep_ok_artifact hok'
    have hprocX : (markStdDone (standardizeStep env (resetStd st) p).st).processed_files = [p] := by
      show (standardizeStep env (resetStd st) p).st.processed_files = [p]
      rw [standardizeStep_processed]
      exact hp
    have hartX : (markStdDone (standardizeStep env (resetStd st) p).st).fs.fileExists
        (stdOutPath p) = true := hart
    rw [standardize_resumes_singleton_cached env'
        (markStdDone (standardizeStep env (resetStd st) p).st) p hinit hprocX hartX]
    exact ⟨rfl, rfl, rfl, rfl⟩

theorem standardize_rerun_reuses_artifact_witness :
    stA.processed_files = [pA] ∧
    (standardize_resumes stdEnvA stA).outcomes = [.ok] ∧
    ((standardize_resumes stdEnvA (standardize_resumes stdEnvA stA).state).llmCalls = [0] ∧
     (standardize_resumes stdEnvA (standardize_resumes stdEnvA stA).state).outcomes = [.cached] ∧
     (standardize_resumes stdEnvA (standardize_resumes stdEnvA stA).state).state.fs.read
        (stdOutPath pA) =
       (standardize_resumes stdEnvA stA).state.fs.read (stdOutPath pA) ∧
     (standardize_resumes stdEnvA (standardize_resumes stdEnvA stA).state).state.standardized_files =
       [stdOutPath pA]) :=
  ⟨rfl, rfl, standardize_rerun_reuses_artifact stdEnvA stdEnvA stA pA rfl rfl rfl⟩

/-- C5 counterexample: with a parser whose construction raises at the
second loop iteration (it is constructed inside the loop, outside the
per-item handler — `main.py` line 79), the exception escapes
`process_uploaded_files`, and it does so after the first item was already
processed — not before any item, and not contained. -/
theorem parse_stage_exception_escapes :
    (process_uploaded_files parseEnvBad filesAB emptySession).escaped =
      some "RuntimeError: no running event loop" ∧
    (process_uploaded_files parseEnvBad filesAB emptySession).outcomes = [.ok] :=
  ⟨rfl, rfl⟩

/-- C5 amended: per-item errors are contained in all three stages and the
store stage never lets an exception escape; the standardize stage aborts
before any item, without escaping, on an initializer `ValueError`.  But the
parse stage constructs its parser per item without a guard, so a parser
construction error escapes the stage (see the counterexample), and a
standardizer initializer exception other than `ValueError` would also
escape. -/
theorem stage_exception_containment
    (envP : ParseEnv) (files : List (String × String)) (stP : SessionState)
    (envS : StdEnv) (stS : SessionState) (envU : StoreEnv) (stU : SessionState)
    (h1 : ∀ k, envP.initExn k = none)
    (h2 : ∀ m, envS.init ≠ .otherExn m) :
    (process_uploaded_files envP files stP).escaped = none ∧
    (standardize_resumes envS stS).escaped = none ∧
    (∀ m, envS.init = .valueError m → (standardize_resumes envS stS).outcomes = []) ∧
    (upload_to_mongodb envU stU).escaped = none := by
  refine ⟨?_, ?_, ?_, ?_⟩
  · rw [process_uploaded_files_eq envP files stP h1]
  · cases hi : envS.init with
    | ok =>
      unfold standardize_resumes
      rw [hi]
    | valueError m => simp [standardize_resumes, hi]
    | otherExn m => exact absurd hi (h2 m)
  · intro m hm
    simp [standardize_resumes, hm]
  · cases hi : envU.initExn with
    | some m => simp [upload_to_mongodb, hi]
    | none =>
      unfold upload_to_mongodb
      rw [hi]

theorem stage_exception_containment_witness :
    (process_uploaded_files parseEnvA filesAB emptySession).escaped = none ∧
    (standardize_resumes stdEnvA stA).escaped = none ∧
    (∀ m, stdEnvA.init = .valueError m → (standardize_resumes stdEnvA stA).outcomes = []) ∧
    (upload_to_mongodb storeEnvA stStore).escaped = none :=
  stage_exception_containment parseEnvA filesAB emptySession stdEnvA stA storeEnvA stStore
    (fun _ => rfl) (fun _ h => StdInit.noConfusion h)

theorem FPath.ne_of_dir_ne {p q : FPath} (h : p.dir ≠ q.dir) : p ≠ q :=
  fun he => h (congrArg FPath.dir he)

theorem parsedPathOf_ne_stdOutPath (n : String) (q : FPath) :
    parsedPathOf n ≠ stdOutPath q := by
  intro he
  have h : parsed_dir = standardized_dir := congrArg FPath.dir he
  exact absurd h (by decide)

theorem tempPathOf_ne_stdOutPath (n : String) (q : FPath) :
    tempPathOf n ≠ stdOutPath q := by
  intro he
  have h : temp_dir = standardized_dir := congrArg FPath.dir he
  exact absurd h (by decide)

/-- C6 counterexample: a file whose standardized artifact is already staged
(the item is in the `Standardized` state) is still re-extracted by the parse
stage — `parse_resume` is invoked for it (the parse loop never consults the
standardized staging directory). -/
theorem parse_reextracts_despite_artifact :
    stC6.fs.fileExists (stdOutPath (parsedPathOf "a.pdf")) = true ∧
    (process_uploaded_files parseEnvA [("a.pdf", "BLOBA")] stC6).parseCalls =
      [tempPathOf "a.pdf"] :=
  ⟨rfl, rfl⟩

/-- C6 amended: re-running a batch over an item already in the
`Standardized` state skips only re-standardizing: the parse stage still
re-extracts the file (exactly one `parse_resume` call for it), after which
the standardize stage reuses the staged artifact with zero LLM calls and
advances the item toward `Stored` by appending it to the succeeded list. -/
theorem rerun_skips_standardize_only
    (envP : ParseEnv) (envS : StdEnv) (st : SessionState)
    (f : String × String) (c : String) (ls : List String)
    (hinit : ∀ k, envP.initExn k = none)
    (hext : SUPPORTED_EXTENSIONS.contains (strToLower (pySuffix f.1)) = true)
    (hpr : envP.parse_resume (tempPathOf f.1) = .ok c ls)
    (hinitS : envS.init = .ok)
    (hart : st.fs.fileExists (stdOutPath (parsedPathOf f.1)) = true) :
    (process_uploaded_files envP [f] st).parseCalls = [tempPathOf f.1] ∧
    (standardize_resumes envS (process_uploaded_files envP [f] st).state).llmCalls = [0] ∧
    (standardize_resumes envS (process_uploaded_files envP [f] st).state).outcomes = [.cached] ∧
    (standardize_resumes envS
        (process_uploaded_files envP [f] st).state).state.standardized_files =
      [stdOutPath (parsedPathOf f.1)] := by
  have houtcome : parseOutcomeOf envP f = .ok := by
    unfold parseOutcomeOf
    rw [if_pos hext, hpr]
  have hproc : (process_uploaded_files envP [f] st).state.processed_files =
      [parsedPathOf f.1] := by
    rw [process_uploaded_files_processed envP [f] st hinit]
    unfold parseSuccessPaths
    simp [houtcome]
  have hfs : (process_uploaded_files envP [f] st).state.fs.read
        (stdOutPath (parsedPathOf f.1)) =
      st.fs.read (stdOutPath (parsedPathOf f.1)) := by
    rw [process_uploaded_files_eq envP [f] st hinit]
    show (parseStepState envP f
        { st with processing_complete := false, standardizing_complete := false,
                  db_upload_complete := false, processed_files := [] }).fs.read
        (stdOutPath (parsedPathOf f.1)) = st.fs.read (stdOutPath (parsedPathOf f.1))
    unfold parseStepState
    simp only [hpr]
    rw [if_pos hext]
    rw [FS.read_write_ne _ (parsedPathOf_ne_stdOutPath f.1 (parsedPathOf f.1))]
    rw [FS.read_write_ne _ (tempPathOf_ne_stdOutPath f.1 (parsedPathOf f.1))]
  have hartP : (process_uploaded_files envP [f] st).state.fs.fileExists
      (stdOutPath (parsedPathOf f.1)) = true := by
    unfold FS.fileExists
    rw [hfs]
    exact hart
  have hcalls : (process_uploaded_files envP [f] st).parseCalls = [tempPathOf f.1] := by
    rw [process_uploaded_files_eq envP [f] st hinit]
    show ([f].map parseCallsOf).flatten = [tempPathOf f.1]
    unfold parseCallsOf
    dsimp only [List.map, List.flatten]
    rw [if_pos hext]
    simp
  rw [standardize_resumes_singleton_cached envS
      (process_uploaded_files envP [f] st).state (parsedPathOf f.1) hinitS hproc hartP]
  exact ⟨hcalls, rfl, rfl, rfl⟩

theorem rerun_skips_standardize_only_witness :
    SUPPORTED_EXTENSIONS.contains (strToLower (pySuffix "a.pdf")) = true ∧
    stC6.fs.fileExists (stdOutPath (parsedPathOf "a.pdf")) = true ∧
    ((process_uploaded_files parseEnvA [("a.pdf", "BLOBA")] stC6).parseCalls =
       [tempPathOf "a.pdf"] ∧
     (standardize_resumes stdEnvA
         (process_uploaded_files parseEnvA [("a.pdf", "BLOBA")] stC6).state).llmCalls = [0] ∧
     (standardize_resumes stdEnvA
         (process_uploaded_files parseEnvA [("a.pdf", "BLOBA")] stC6).state).outcomes = [.cached] ∧
     (standardize_resumes stdEnvA
         (process_uploaded_files parseEnvA [("a.pdf", "BLOBA")]
           stC6).state).state.standardized_files = [stdOutPath (parsedPathOf "a.pdf")]) :=
  ⟨rfl, rfl,
   rerun_skips_standardize_only parseEnvA stdEnvA stC6 ("a.pdf", "BLOBA") "hello" ["x"]
     (fun _ => rfl) rfl rfl rfl rfl⟩

theorem storeStep_eq_general (env : StoreEnv) (st : SessionState) (p : FPath) :
    storeStep env st p =
      ({ st with uploaded_files := st.uploaded_files ++
          (if storeOutcomeOf env st.fs p = .ok then [p.nm] else []) },
       storeOutcomeOf env st.fs p) := by
  unfold storeStep storeOutcomeOf
  cases hr : st.fs.read p with
  | none => simp
  | some fc =>
    cases fc with
    | js j =>
      cases hu : env.insert_or_update_resume j with
      | ok u => simp [hu]
      | error m => simp [hu]
    | txt s => simp
    | blob s => simp

/-- Closed form of the store loop: the staging area never changes, one
outcome per standardized artifact, and exactly the names of the
successfully upserted artifacts are appended to `uploaded_files`. -/
theorem runStoreFrom_eq_general (env : StoreEnv) :
    ∀ (l : List FPath) (st : SessionState),
      runStoreFrom env st l =
        ({ st with uploaded_files := st.uploaded_files ++
            l.filterMap (fun p => if storeOutcomeOf env st.fs p = .ok then some p.nm else none) },
         l.map (storeOutcomeOf env st.fs)) := by
  intro l
  induction l with
  | nil => intro st; simp [runStoreFrom]
  | cons p rest ih =>
    intro st
    rw [runStoreFrom, storeStep_eq_general]
    dsimp only
    rw [ih { st with uploaded_files := st.uploaded_files ++
        (if storeOutcomeOf env st.fs p = .ok then [p.nm] else []) }]
    by_cases ho : storeOutcomeOf env st.fs p = .ok <;>
      simp [ho, List.filterMap_cons, List.append_assoc]

/-- Closed form of a whole store-stage run when the DB manager connects. -/
theorem upload_to_mongodb_eq (env : StoreEnv) (s : SessionState)
    (h : env.initExn = none) :
    upload_to_mongodb env s =
      { state := { s with db_upload_complete := true,
                          uploaded_files := s.uploaded_files ++
                            s.standardized_files.filterMap
                              (fun p => if storeOutcomeOf env s.fs p = .ok then some p.nm else none) },
        outcomes := s.standardized_files.map (storeOutcomeOf env s.fs),
        escaped := none } := by
  unfold upload_to_mongodb
  rw [h]
  dsimp only
  rw [runStoreFrom_eq_general env s.standardized_files { s with db_upload_complete := false }]

theorem standardize_resumes_ok_lengths (env : StdEnv) (s : SessionState)
    (h : env.init = .ok) :
    (standardize_resumes env s).outcomes.length = s.processed_files.length := by
  unfold standardize_resumes
  rw [h]
  dsimp only
  exact (runStdFrom_lengths env s.processed_files
    { s with standardizing_complete := false, standardized_files := [] }).1

/-- Stage-level form: with the standardizer constructed, the succeeded
list of `standardize_resumes` consists of the artifact paths of exactly
those processed items whose outcome in this run succeeded. -/
theorem standardize_resumes_ok_standardized (env : StdEnv) (s : SessionState)
    (h : env.init = .ok) :
    (standardize_resumes env s).state.standardized_files =
      (s.processed_files.zip (standardize_resumes env s).outcomes).filterMap
        (fun pc => if pc.2 = StdOutcome.cached ∨ pc.2 = StdOutcome.ok
                   then some (stdOutPath pc.1) else none) := by
  unfold standardize_resumes
  rw [h]
  dsimp only
  rw [runStdFrom_standardized env s.processed_files
    { s with standardizing_complete := false, standardized_files := [] }]
  simp

/-- C4: failure is sticky across stages.  The parse stage emits one outcome
per input file and its succeeded list holds exactly the artifacts of
success-outcome files; the standardize stage examines exactly the
parse-succeeded list (one outcome per entry) and its succeeded list equals
the artifact paths of precisely the items whose outcome in this run was a
fresh success or a cache hit — run-failed items contribute nothing; the
store stage examines exactly the standardize-succeeded list (one outcome
per entry) and appends only successfully upserted names. -/
theorem failure_is_sticky
    (env1 : ParseEnv) (files : List (String × String)) (st : SessionState)
    (env2 : StdEnv) (env3 : StoreEnv)
    (h1 : ∀ k, env1.initExn k = none)
    (h2 : env2.init = .ok)
    (h3 : env3.initExn = none) :
    (process_uploaded_files env1 files st).outcomes.length = files.length ∧
    (∀ q ∈ (process_uploaded_files env1 files st).state.processed_files,
       ∃ f, f ∈ files ∧ parseOutcomeOf env1 f = .ok ∧ q = parsedPathOf f.1) ∧
    (standardize_resumes env2 (process_uploaded_files env1 files st).state).outcomes.length =
      (process_uploaded_files env1 files st).state.processed_files.length ∧
    (standardize_resumes env2
        (process_uploaded_files env1 files st).state).state.standardized_files =
      ((process_uploaded_files env1 files st).state.processed_files.zip
        (standardize_resumes env2 (process_uploaded_files env1 files st).state).outcomes).filterMap
        (fun pc => if pc.2 = StdOutcome.cached ∨ pc.2 = StdOutcome.ok
                   then some (stdOutPath pc.1) else none) ∧
    (upload_to_mongodb env3 (standardize_resumes env2
        (process_uploaded_files env1 files st).state).state).outcomes.length =
      (standardize_resumes env2
        (process_uploaded_files env1 files st).state).state.standardized_files.length ∧
    (∀ n ∈ (upload_to_mongodb env3 (standardize_resumes env2
              (process_uploaded_files env1 files st).state).state).state.uploaded_files,
       n ∈ (standardize_resumes env2
              (process_uploaded_files env1 files st).state).state.uploaded_files ∨
       ∃ p ∈ (standardize_resumes env2
                (process_uploaded_files env1 files st).state).state.standardized_files,
         storeOutcomeOf env3 (standardize_resumes env2
           (process_uploaded_files env1 files st).state).state.fs p = .ok ∧ n = p.nm) := by
  refine ⟨?_, ?_, ?_, ?_, ?_, ?_⟩
  · rw [process_uploaded_files_eq env1 files st h1]
    exact List.length_map files (parseOutcomeOf env1)
  · intro q hq
    rw [process_uploaded_files_processed env1 files st h1] at hq
    unfold parseSuccessPaths at hq
    obtain ⟨f', hf', hmatch⟩ := List.mem_filterMap.1 hq
    cases ho : parseOutcomeOf env1 f' with
    | ok =>
      rw [ho] at hmatch
      exact ⟨f', hf', ho, (Option.some_inj.1 hmatch).symm⟩
    | unsupported => rw [ho] at hmatch; cases hmatch
    | noContent => rw [ho] at hmatch; cases hmatch
    | parseError m => rw [ho] at hmatch; cases hmatch
  · exact standardize_resumes_ok_lengths env2 _ h2
  · exact standardize_resumes_ok_standardized env2 _ h2
  · rw [upload_to_mongodb_eq env3 _ h3]
    exact List.length_map _ _
  · intro n hn
    rw [upload_to_mongodb_eq env3 _ h3] at hn
    rcases List.mem_append.1 hn with hl | hr
    · exact .inl hl
    · right
      obtain ⟨p, hp, hcond⟩ := List.mem_filterMap.1 hr
      by_cases ho : storeOutcomeOf env3 (standardize_resumes env2
          (process_uploaded_files env1 files st).state).state.fs p = .ok
      · rw [if_pos ho] at hcond
        exact ⟨p, hp, ho, (Option.some_inj.1 hcond).symm⟩
      · rw [if_neg ho] at hcond
        cases hcond

theorem failure_is_sticky_witness :
    (process_uploaded_files parseEnvA [("a.pdf", "BLOBA")] emptySession).outcomes.length =
      [("a.pdf", "BLOBA")].length ∧
    (∀ q ∈ (process_uploaded_files parseEnvA [("a.pdf", "BLOBA")]
              emptySession).state.processed_files,
       ∃ f, f ∈ [("a.pdf", "BLOBA")] ∧ parseOutcomeOf parseEnvA f = .ok ∧
         q = parsedPathOf f.1) ∧
    (standardize_resumes stdEnvA (process_uploaded_files parseEnvA [("a.pdf", "BLOBA")]
        emptySession).state).outcomes.length =
      (process_uploaded_files parseEnvA [("a.pdf", "BLOBA")]
        emptySession).state.processed_files.length ∧
    (standardize_resumes stdEnvA (process_uploaded_files parseEnvA [("a.pdf", "BLOBA")]
        emptySession).state).state.standardized_files =
      ((process_uploaded_files parseEnvA [("a.pdf", "BLOBA")]
          emptySession).state.processed_files.zip
        (standardize_resumes stdEnvA (process_uploaded_files parseEnvA [("a.pdf", "BLOBA")]
          emptySession).state).outcomes).filterMap
        (fun pc => if pc.2 = StdOutcome.cached ∨ pc.2 = StdOutcome.ok
                   then some (stdOutPath pc.1) else none) ∧
    (upload_to_mongodb storeEnvA (standardize_resumes stdEnvA
        (process_uploaded_files parseEnvA [("a.pdf", "BLOBA")]
          emptySession).state).state).outcomes.length =
      (standardize_resumes stdEnvA (process_uploaded_files parseEnvA [("a.pdf", "BLOBA")]
        emptySession).state).state.standardized_files.length ∧
    (∀ n ∈ (upload_to_mongodb storeEnvA (standardize_resumes stdEnvA
              (process_uploaded_files parseEnvA [("a.pdf", "BLOBA")]
                emptySession).state).state).state.uploaded_files,
       n ∈ (standardize_resumes stdEnvA (process_uploaded_files parseEnvA [("a.pdf", "BLOBA")]
              emptySession).state).state.uploaded_files ∨
       ∃ p ∈ (standardize_resumes stdEnvA (process_uploaded_files parseEnvA [("a.pdf", "BLOBA")]
                emptySession).state).state.standardized_files,
         storeOutcomeOf storeEnvA (standardize_resumes stdEnvA
           (process_uploaded_files parseEnvA [("a.pdf", "BLOBA")]
             emptySession).state).state.fs p = .ok ∧ n = p.nm) :=
  failure_is_sticky parseEnvA [("a.pdf", "BLOBA")] emptySession stdEnvA storeEnvA
    (fun _ => rfl) rfl rfl

/-- One store run under universally succeeding reads and upserts: uploads
grow by the batch size, staging and the succeeded list are untouched. -/
theorem iterStore_length (env : StoreEnv)
    (h1 : env.initExn = none)
    (h2 : ∀ j, env.insert_or_update_resume j = .ok ()) :
    ∀ (k : Nat) (st : SessionState),
      (∀ p ∈ st.standardized_files, ∃ j, st.fs.read p = some (.js j)) →
      (iterStore env k st).uploaded_files.length =
        st.uploaded_files.length + k * st.standardized_files.length := by
  intro k
  induction k with
  | zero => intro st _; simp [iterStore]
  | succ n ih =>
    intro st h3
    rw [iterStore, upload_to_mongodb_all_ok env st h1 h2 h3]
    rw [ih { st with db_upload_complete := true,
                     uploaded_files := st.uploaded_files ++
                       st.standardized_files.map (fun p => p.nm) } h3]
    show (st.uploaded_files ++ st.standardized_files.map (fun p => p.nm)).length +
        n * st.standardized_files.length =
      st.uploaded_files.length + (n + 1) * st.standardized_files.length
    rw [List.length_append, List.length_map]
    ring

/-- C10: the store stage never resets its cumulative output list.  With all
artifacts readable and all upserts succeeding, running the store stage `k`
times over a standardized batch of `n` items leaves the session's
uploaded-files list with `k * n` entries — unlike the parse and standardize
stages, whose succeeded lists are reset at the start of each run and hence
do not depend on their previous value. -/
theorem store_accumulates_uploads (env : StoreEnv) (st : SessionState) (k : Nat)
    (h1 : env.initExn = none)
    (h2 : ∀ j, env.insert_or_update_resume j = .ok ())
    (h3 : ∀ p ∈ st.standardized_files, ∃ j, st.fs.read p = some (.js j))
    (h4 : st.uploaded_files = []) :
    (iterStore env k st).uploaded_files.length = k * st.standardized_files.length ∧
    (∀ (envP : ParseEnv) (files : List (String × String)) (s : SessionState) (l : List FPath),
       (process_uploaded_files envP files s).state.processed_files =
       (process_uploaded_files envP files { s with processed_files := l }).state.processed_files) ∧
    (∀ (envS : StdEnv) (s : SessionState) (l : List FPath),
       (standardize_resumes envS s).state.standardized_files =
       (standardize_resumes envS { s with standardized_files := l }).state.standardized_files) := by
  refine ⟨?_, fun envP files s l => rfl, fun envS s l => rfl⟩
  rw [iterStore_length env h1 h2 k st h3, h4]
  simp

theorem store_accumulates_uploads_witness :
    stStore.uploaded_files = [] ∧
    ((iterStore storeEnvA 3 stStore).uploaded_files.length =
       3 * stStore.standardized_files.length ∧
     (∀ (envP : ParseEnv) (files : List (String × String)) (s : SessionState) (l : List FPath),
        (process_uploaded_files envP files s).state.processed_files =
        (process_uploaded_files envP files { s with processed_files := l }).state.processed_files) ∧
     (∀ (envS : StdEnv) (s : SessionState) (l : List FPath),
        (standardize_resumes envS s).state.standardized_files =
        (standardize_resumes envS { s with standardized_files := l }).state.standardized_files)) :=
  ⟨rfl, store_accumulates_uploads storeEnvA stStore 3 rfl (fun _ => rfl)
    (fun p hp => ⟨parsedA, by
      cases hp with
      | head => rfl
      | tail _ h => cases h⟩) rfl⟩
